import Mathlib

/-!
# Fault-tolerant ingestion service: the normaliser and the ingest handler

A shallow embedding of `src/backend/server.js`:

* `normalizeEvent` (lines 32-63), with the value conversions it relies on;
* the `POST /ingest` handler (lines 68-133), split at its two store
  operations (`db.get`, then `stmt.run`) so that both the sequential
  behaviour and the interleaving of concurrent requests can be stated;
* the `events` table (lines 16-26) as a list of rows with the `UNIQUE`
  constraint on `event_hash` enforced by the insert.

The JavaScript engine and library functions the code calls but does not define
(`parseFloat` on strings, number printing, `JSON.stringify`, SHA-256,
`Date`) are fields of a `Host` record; the theorems hold for every host.
-/

namespace FaultTolerant

/-! ## JavaScript values -/

/-- A JavaScript number: not-a-number, the two infinities, or a finite value. -/
inductive JSNum where
  | nan
  | posInf
  | negInf
  | fin (q : Rat)

/-- The test `isNaN(x)` on a number. -/
def JSNum.isNaN : JSNum → Bool
  | .nan => true
  | _ => false

/-- Truthiness of a number: zero and not-a-number are falsy. -/
def JSNum.truthy : JSNum → Bool
  | .nan => false
  | .fin q => decide (q ≠ 0)
  | _ => true

/-- A JavaScript value as it reaches the handler: `undefined` (an absent
field), or a value parsed from the JSON request body.  The fields of an
object are held in own-property order, the order `Object.keys` reports. -/
inductive JSVal where
  | undefined
  | null
  | bool (b : Bool)
  | num (x : JSNum)
  | str (s : String)
  | arr (items : List JSVal)
  | obj (fields : List (String × JSVal))

/-- The number literal `n` as a value. -/
def JSVal.int (n : Int) : JSVal := .num (.fin n)

/-- Truthiness, as tested by `||` and `if`. -/
def JSVal.truthy : JSVal → Bool
  | .undefined => false
  | .null => false
  | .bool b => b
  | .num x => x.truthy
  | .str s => decide (s ≠ "")
  | .arr _ => true
  | .obj _ => true

/-- The operator `a || b` on already evaluated operands. -/
def jsOr (a b : JSVal) : JSVal := if a.truthy then a else b

/-- Decimal digits of an array index. -/
def decimal (n : Nat) : List Char :=
  if n < 10 then [Char.ofNat (48 + n)]
  else decimal (n / 10) ++ [Char.ofNat (48 + n % 10)]
termination_by n
decreasing_by omega

/-- The property name of index `i` of an array or string. -/
def indexKey (i : Nat) : String := String.mk (decimal i)

/-- Pairs each element with its index key, starting at index `i`. -/
def indexed : Nat → List JSVal → List (String × JSVal)
  | _, [] => []
  | i, v :: vs => (indexKey i, v) :: indexed (i + 1) vs

/-- Own enumerable properties of a value, in `Object.keys` order: the fields
of an object, the elements of an array, the characters of a string; numbers
and booleans have none. -/
def ownEntries : JSVal → List (String × JSVal)
  | .obj fields => fields
  | .arr items => indexed 0 items
  | .str s => indexed 0 (s.data.map fun c => JSVal.str (String.singleton c))
  | _ => []

/-- The call `Object.keys(v)`. -/
def objectKeys (v : JSVal) : List String := (ownEntries v).map Prod.fst

/-- First value stored under `key` in a property list. -/
def lookupField (key : String) : List (String × JSVal) → Option JSVal
  | [] => none
  | (k, v) :: rest => if k = key then some v else lookupField key rest

/-- The value of the own property `key` of a value that has properties;
`undefined` when there is no such property. -/
def ownField (v : JSVal) (key : String) : JSVal :=
  (lookupField key (ownEntries v)).getD .undefined

/-- Whether a value is `undefined` or `null`, the values without properties. -/
def JSVal.isNullish : JSVal → Bool
  | .undefined => true
  | .null => true
  | _ => false

/-- The single quote character used in engine messages. -/
def quote : String := String.singleton (Char.ofNat 39)

/-- Property read `v.key` / `v[key]`, for own keys and for the field names
the source reads (none of which is defined on a built-in prototype).  Reading
a property of `undefined` or `null` throws a `TypeError`. -/
def getProp (v : JSVal) (key : String) : Except String JSVal :=
  match v with
  | .undefined =>
    .error ("Cannot read properties of undefined (reading " ++ quote ++ key ++ quote ++ ")")
  | .null =>
    .error ("Cannot read properties of null (reading " ++ quote ++ key ++ quote ++ ")")
  | v => .ok (ownField v key)

/-- The method `key.toLowerCase()`.  Only ASCII letters are mapped: no
character outside ASCII lowercases to a letter of the amount keys. -/
def toLowerCase (s : String) : String := String.mk (s.data.map Char.toLower)

/-! ## The host: engine and library functions -/

/-- Engine and library functions used by the source but defined outside it. -/
structure Host where
  /-- The function `parseFloat` on a string argument. -/
  strToNum : String → JSNum
  /-- Number to string conversion. -/
  numToString : JSNum → String
  /-- The call `JSON.stringify(v)` for a defined value `v`. -/
  stringify : JSVal → String
  /-- Hex digest `crypto.createHash(sha256).update(s).digest(hex)`. -/
  sha256 : String → String
  /-- The expression `new Date(v).toISOString()`; an error when it throws
  (invalid date, or a value that cannot be converted to a primitive). -/
  dateISO : JSVal → Except String String

/-- Joins strings with commas, as `Array.prototype.join` does. -/
def joinComma : List String → String
  | [] => ""
  | [s] => s
  | s :: rest => s ++ "," ++ joinComma rest

mutual
/-- String conversion `String(v)`.  An object with an own `toString` field
(which, parsed from JSON, is never callable) cannot be converted. -/
def toStr (host : Host) : JSVal → Except String String
  | .undefined => .ok "undefined"
  | .null => .ok "null"
  | .bool b => .ok (if b then "true" else "false")
  | .num x => .ok (host.numToString x)
  | .str s => .ok s
  | .arr items => (toStrItems host items).map joinComma
  | .obj fields =>
    if (fields.map Prod.fst).contains "toString" then
      .error "Cannot convert object to primitive value"
    else .ok "[object Object]"
/-- String conversion of the elements of an array for `join`: `undefined`
and `null` elements give the empty string. -/
def toStrItems (host : Host) : List JSVal → Except String (List String)
  | [] => .ok []
  | .undefined :: rest => (toStrItems host rest).map fun ss => "" :: ss
  | .null :: rest => (toStrItems host rest).map fun ss => "" :: ss
  | v :: rest =>
    match toStr host v with
    | .error e => .error e
    | .ok s => (toStrItems host rest).map fun ss => s :: ss
end

/-- The call `parseFloat(v)`: `v` is converted to a string and the string is
parsed.  A number prints and parses back to itself. -/
def parseFloat (host : Host) : JSVal → Except String JSNum
  | .num x => .ok x
  | v => (toStr host v).map host.strToNum

/-! ## normalizeEvent -/

/-- The candidate list `amountKeys`. -/
def amountKeys : List String := ["amount", "cost", "value", "price", "amt"]

/-- Line 34: `raw.payload || raw.data || raw.body || {}`. -/
def dataObject (raw : JSVal) : Except String JSVal := do
  let p ← getProp raw "payload"
  let d ← if p.truthy then pure p else getProp raw "data"
  let b ← if d.truthy then pure d else getProp raw "body"
  pure (jsOr b (.obj []))

/-- Lines 39-44: the loop over `Object.keys(payload)`, started with the
current `amount`; the first key found in `amountKeys` sets it and breaks. -/
def amountLoop (host : Host) (payload : JSVal) (amount : JSNum) :
    List String → Except String JSNum
  | [] => .ok amount
  | key :: rest =>
    if amountKeys.contains (toLowerCase key) then
      match getProp payload key with
      | .error e => .error e
      | .ok v => parseFloat host v
    else amountLoop host payload amount rest

/-- Lines 37-47: the amount heuristic with its not-a-number fallback. -/
def extractAmount (host : Host) (payload : JSVal) : Except String JSNum :=
  match amountLoop host payload (.fin 0) (objectKeys payload) with
  | .error e => .error e
  | .ok amount => .ok (if amount.isNaN then .fin 0 else amount)

/-- Line 50: `payload.timestamp || payload.date || payload.ts || now`, with
`now` the value of `new Date().toISOString()`. -/
def dateStr (payload : JSVal) (now : String) : Except String JSVal := do
  let t ← getProp payload "timestamp"
  let d ← if t.truthy then pure t else getProp payload "date"
  let s ← if d.truthy then pure d else getProp payload "ts"
  pure (jsOr s (.str now))

/-- The object returned by `normalizeEvent`. -/
inductive Normalized where
  | valid (client_id metric : JSVal) (amount : JSNum) (timestamp : String)
  | invalid (error : String)

/-- The field `isValid` of the result. -/
def Normalized.isValid : Normalized → Bool
  | .valid .. => true
  | .invalid _ => false

/-- The body of the `try` block of `normalizeEvent`. -/
def normalizeBody (host : Host) (now : String) (raw : JSVal) : Except String Normalized := do
  let payload ← dataObject raw
  let amount ← extractAmount host payload
  let ds ← dateStr payload now
  let timestamp ← host.dateISO ds
  let src ← getProp raw "source"
  let client_id ← if src.truthy then pure src else getProp raw "client"
  let metric ← getProp payload "metric"
  pure (.valid (jsOr client_id (.str "unknown")) (jsOr metric (.str "generic_event"))
    amount timestamp)

/-- Lines 32-63: `normalizeEvent(raw)`, evaluated when the clock reads `now`. -/
def normalizeEvent (host : Host) (now : String) (raw : JSVal) : Normalized :=
  match normalizeBody host now raw with
  | .ok n => n
  | .error e => .invalid e

/-! ## The events table -/

/-- One row of the table `events` (lines 16-26). -/
structure Row where
  id : Nat
  event_hash : String
  client_id : JSVal
  canonical_metric : JSVal
  canonical_amount : JSNum
  canonical_timestamp : String
  raw_payload : String
  status : String
  created_at : String

/-- The table `events`: its rows in insertion order. -/
abbrev Store := List Row

/-- The seven parameters bound by `stmt.run` (lines 112-119). -/
structure InsertArgs where
  event_hash : String
  client_id : JSVal
  canonical_metric : JSVal
  canonical_amount : JSNum
  canonical_timestamp : String
  raw_payload : String
  status : String

/-- The query `SELECT * FROM events WHERE event_hash = ?` through `db.get`.
A `fault` is an engine failure reported instead of a result. -/
def dbGet (store : Store) (hash : String) (fault : Option String) :
    Except String (Option Row) :=
  match fault with
  | some msg => .error msg
  | none => .ok (store.find? fun r => r.event_hash = hash)

/-- The key `AUTOINCREMENT` assigns: one more than the largest id in use. -/
def nextId (store : Store) : Nat := (store.map Row.id).foldr max 0 + 1

/-- The message of a violation of `event_hash TEXT UNIQUE`. -/
def uniqueViolation : String :=
  "SQLITE_CONSTRAINT: UNIQUE constraint failed: events.event_hash"

/-- The statement `INSERT INTO events (...) VALUES (?, ?, ?, ?, ?, ?, ?)`:
fails when a row with the same `event_hash` exists, otherwise appends the row
with a fresh id and `created_at` set to the current time `dbNow`.  A `fault`
is an engine failure; a failed statement leaves the table unchanged. -/
def dbInsert (store : Store) (a : InsertArgs) (dbNow : String) (fault : Option String) :
    Store × Except String Nat :=
  match fault with
  | some msg => (store, .error msg)
  | none =>
    if store.any fun r => r.event_hash = a.event_hash then
      (store, .error uniqueViolation)
    else
      (store ++ [{ id := nextId store, event_hash := a.event_hash, client_id := a.client_id,
                   canonical_metric := a.canonical_metric,
                   canonical_amount := a.canonical_amount,
                   canonical_timestamp := a.canonical_timestamp,
                   raw_payload := a.raw_payload, status := a.status,
                   created_at := dbNow }],
       .ok (nextId store))

/-! ## POST /ingest -/

/-- Whether the characters `sub` are the first characters of a list. -/
def startsWith : List Char → List Char → Bool
  | [], _ => true
  | _ :: _, [] => false
  | a :: sub, c :: cs => a = c && startsWith sub cs

/-- Whether the characters `sub` occur contiguously in a list. -/
def hasSubstring (sub : List Char) : List Char → Bool
  | [] => sub.isEmpty
  | c :: cs => startsWith sub (c :: cs) || hasSubstring sub cs

/-- The method `s.includes(sub)`. -/
def includes (s sub : String) : Bool := hasSubstring sub.data s.data

/-- What the client receives: a JSON response written by the handler, or the
framework's answer (status 500) to an exception that escaped the handler. -/
inductive Response where
  | json (status : Nat) (body : JSVal)
  | uncaught (error : String)

/-- HTTP status of a response. -/
def Response.status : Response → Nat
  | .json status _ => status
  | .uncaught _ => 500

/-- JSON body of a response (`undefined` when the handler wrote none). -/
def Response.body : Response → JSVal
  | .json _ body => body
  | .uncaught _ => .undefined

/-- The request body: `req.body.event` and `req.body.simulateFailure`, each
`undefined` when absent. -/
structure Request where
  event : JSVal
  simulateFailure : JSVal

/-- Whether a value is `undefined`. -/
def JSVal.isUndefined : JSVal → Bool
  | .undefined => true
  | _ => false

/-- Lines 75-76: the fingerprint `eventHash` of a defined payload. -/
def eventHash (host : Host) (rawEvent : JSVal) : String :=
  host.sha256 (host.stringify rawEvent)

/-- Line 84: the response of the fast-path duplicate check. -/
def dedupResponse : Response :=
  .json 200 (.obj [("status", .str "success"),
                   ("message", .str "Event processed (deduplicated)"),
                   ("deduplicated", .bool true)])

/-- Line 124: the response to a uniqueness violation at insert time. -/
def raceResponse : Response :=
  .json 200 (.obj [("status", .str "success"),
                   ("message", .str "Event processed (race-condition dedup)")])

/-- Line 128: the response to a successful insert. -/
def createdResponse (lastID : Nat) : Response :=
  .json 201 (.obj [("status", .str "success"), ("id", .int lastID)])

/-- A response with body `{ error: msg }`. -/
def errorResponse (status : Nat) (msg : String) : Response :=
  .json status (.obj [("error", .str msg)])

/-- The message of the `TypeError` thrown by `update(undefined)`. -/
def updateTypeError : String :=
  "The \"data\" argument must be of type string or an instance of Buffer, TypedArray, or DataView. Received undefined"

/-- Outcome of the handler up to the point where `stmt.run` is issued: it has
answered, or it has an insert in flight. -/
inductive Pending where
  | respond (r : Response)
  | insert (a : InsertArgs)

/-- Lines 69-119: the handler from the request to the issue of the insert,
with `db.get` executed on `store`.  `JSON.stringify(undefined)` is
`undefined`, which `update` rejects with a `TypeError` outside any `try`. -/
def ingestLookup (host : Host) (store : Store) (req : Request) (now : String)
    (getFault : Option String) : Pending :=
  let rawEvent := req.event
  if rawEvent.isUndefined then
    .respond (.uncaught updateTypeError)
  else
    let eventString := host.stringify rawEvent
    let eventHash := host.sha256 eventString
    match dbGet store eventHash getFault with
    | .error _ => .respond (errorResponse 500 "DB Error")
    | .ok (some _) => .respond dedupResponse
    | .ok none =>
      match normalizeEvent host now rawEvent with
      | .invalid _ => .respond (errorResponse 400 "Normalization failed")
      | .valid client_id metric amount timestamp =>
        if req.simulateFailure.truthy then
          .respond (errorResponse 500 "Simulated Internal Server Error")
        else
          .insert { event_hash := eventHash, client_id := client_id,
                    canonical_metric := metric, canonical_amount := amount,
                    canonical_timestamp := timestamp, raw_payload := eventString,
                    status := "processed" }

/-- Lines 112-130: `stmt.run` executed on `store`, and its callback. -/
def ingestInsert (store : Store) (a : InsertArgs) (dbNow : String)
    (runFault : Option String) : Store × Response :=
  match dbInsert store a dbNow runFault with
  | (store1, .error message) =>
    if includes message "UNIQUE constraint failed" then (store1, raceResponse)
    else (store1, errorResponse 500 "Database write failed")
  | (store1, .ok lastID) => (store1, createdResponse lastID)

/-- What a request meets outside the handler: the clock at normalisation, the
clock at insert, and engine failures of the lookup and of the insert. -/
structure Ambient where
  now : String
  dbNow : String
  getFault : Option String
  runFault : Option String

/-- An ambient in which the store engine does not fail. -/
def Ambient.calm (amb : Ambient) : Prop := amb.getFault = none ∧ amb.runFault = none

instance (amb : Ambient) : Decidable amb.calm :=
  inferInstanceAs (Decidable (amb.getFault = none ∧ amb.runFault = none))

/-- One request of `POST /ingest` handled with no other request in between:
the lookup and the insert see the same table. -/
def ingest (host : Host) (store : Store) (req : Request) (amb : Ambient) : Store × Response :=
  match ingestLookup host store req amb.now amb.getFault with
  | .respond r => (store, r)
  | .insert a => ingestInsert store a amb.dbNow amb.runFault

/-- A sequence of requests handled one after the other; returns the final
table and the responses in order. -/
def ingestAll (host : Host) : Store → List (Request × Ambient) → Store × List Response
  | store, [] => (store, [])
  | store, (req, amb) :: rest =>
    let (store1, r) := ingest host store req amb
    let (store2, rs) := ingestAll host store1 rest
    (store2, r :: rs)

/-! ## Concurrent requests -/

/-- The service between store operations: the table and the inserts issued
but not yet executed. -/
structure Sys where
  store : Store
  inflight : List InsertArgs

/-- A store operation reaching the engine: the lookup of an arriving
request, or the execution of the in-flight insert number `i`. -/
inductive Action where
  | arrive (req : Request) (now : String) (getFault : Option String)
  | commit (i : Nat) (dbNow : String) (runFault : Option String)

/-- The effect of one store operation, with the response it triggers. -/
def Sys.step (host : Host) (σ : Sys) : Action → Sys × Option Response
  | .arrive req now getFault =>
    match ingestLookup host σ.store req now getFault with
    | .respond r => (σ, some r)
    | .insert a => ({ σ with inflight := σ.inflight ++ [a] }, none)
  | .commit i dbNow runFault =>
    match σ.inflight.get? i with
    | none => (σ, none)
    | some a =>
      let (store1, r) := ingestInsert σ.store a dbNow runFault
      ({ store := store1, inflight := σ.inflight.eraseIdx i }, some r)

/-- Runs a schedule of store operations; returns the final state and the
responses in order. -/
def Sys.run (host : Host) : Sys → List Action → Sys × List Response
  | σ, [] => (σ, [])
  | σ, act :: rest =>
    let (σ1, r) := σ.step host act
    let (σ2, rs) := Sys.run host σ1 rest
    (σ2, r.toList ++ rs)

/-- The service at start-up: an empty table, nothing in flight. -/
def Sys.init : Sys := { store := [], inflight := [] }

/-! ## A host for evaluation -/

mutual
/-- A compact rendering of a value, standing in for `JSON.stringify`. -/
def render : JSVal → String
  | .undefined => "undefined"
  | .null => "null"
  | .bool b => if b then "true" else "false"
  | .num .nan => "null"
  | .num .posInf => "null"
  | .num .negInf => "null"
  | .num (.fin q) => if q.den = 1 then toString q.num else toString q.num ++ "/" ++ toString q.den
  | .str s => "\"" ++ s ++ "\""
  | .arr items => "[" ++ renderItems items ++ "]"
  | .obj fields => "(" ++ renderFields fields ++ ")"
/-- Renders the elements of an array. -/
def renderItems : List JSVal → String
  | [] => ""
  | v :: rest => render v ++ "," ++ renderItems rest
/-- Renders the fields of an object. -/
def renderFields : List (String × JSVal) → String
  | [] => ""
  | (k, v) :: rest => "\"" ++ k ++ "\":" ++ render v ++ "," ++ renderFields rest
end

/-- The value of a string of decimal digits, read from its last digit;
nothing for the empty string or when another character occurs. -/
def digitsValueRev : List Char → Option Nat
  | [] => none
  | [c] => if c.isDigit then some (c.toNat - 48) else none
  | c :: rest =>
    match digitsValueRev rest with
    | some n => if c.isDigit then some (10 * n + (c.toNat - 48)) else none
    | none => none

/-- The value of a non-empty string of decimal digits. -/
def digitsValue (cs : List Char) : Option Nat := digitsValueRev cs.reverse

/-- A small host on which the model can be evaluated: the hash is the
identity, strings of digits parse to their value and other strings to
not-a-number, and a date is valid exactly when it is a 24-character string
(the length `toISOString` prints), which is returned unchanged. -/
def refHost : Host where
  strToNum s :=
    match digitsValue s.data with
    | some n => .fin n
    | none => .nan
  numToString x := render (.num x)
  stringify := render
  sha256 := id
  dateISO v :=
    match v with
    | .str s => if s.length = 24 then .ok s else .error "Invalid time value"
    | _ => .error "Invalid time value"

/-! ## Specification-side definitions and sample inputs -/

/-- The row a successful insert of the normalised payload appends. -/
def insertedRow (store : Store) (a : InsertArgs) (dbNow : String) : Row :=
  { id := nextId store, event_hash := a.event_hash, client_id := a.client_id,
    canonical_metric := a.canonical_metric, canonical_amount := a.canonical_amount,
    canonical_timestamp := a.canonical_timestamp, raw_payload := a.raw_payload,
    status := a.status, created_at := dbNow }

/-- The parameters `stmt.run` binds for a payload normalised to the given
fields. -/
def insertArgsOf (host : Host) (raw client_id metric : JSVal) (amount : JSNum)
    (timestamp : String) : InsertArgs :=
  { event_hash := eventHash host raw, client_id := client_id, canonical_metric := metric,
    canonical_amount := amount, canonical_timestamp := timestamp,
    raw_payload := host.stringify raw, status := "processed" }

/-- A clock reading, as `toISOString` prints it. -/
def now0 : String := "2024-01-01T10:00:00.000Z"

/-- A payload with a `payload` field listing `value` before `amount`. -/
def rawB : JSVal :=
  .obj [("source", .str "client_A"),
        ("payload", .obj [("metric", .str "click"), ("value", .int 5), ("amount", .int 10)])]

/-- An ambient with a working store engine. -/
def calm0 : Ambient := ⟨now0, "2024-01-01 10:00:00", none, none⟩

/-- The table invariant: fingerprints pairwise distinct, every row
`processed`. -/
def StoreInvariant (store : Store) : Prop :=
  (store.map Row.event_hash).Nodup ∧ ∀ r ∈ store, r.status = "processed"

/-- The invariant of the concurrent service: the table invariant, and every
insert in flight carries status `processed`. -/
def SysInvariant (σ : Sys) : Prop :=
  StoreInvariant σ.store ∧ ∀ a ∈ σ.inflight, a.status = "processed"

/-- The amount of a data object in the words of the specification: the first
field, in the object's own order, whose lowercased name is a candidate
supplies the amount through `parseFloat`; `0` when there is no such field or
its value parses to not-a-number. -/
def amountSpec (host : Host) (data : JSVal) : Except String JSNum :=
  match (ownEntries data).find? fun kv => amountKeys.contains (toLowerCase kv.1) with
  | none => .ok (.fin 0)
  | some kv =>
    match parseFloat host kv.2 with
    | .error e => .error e
    | .ok x => .ok (if x.isNaN then .fin 0 else x)

/-- The data object in the words of the amended specification: the first
truthy of the fields `payload`, `data`, `body`, else an empty object. -/
def selectedData (raw : JSVal) : JSVal :=
  if (ownField raw "payload").truthy then ownField raw "payload"
  else if (ownField raw "data").truthy then ownField raw "data"
  else if (ownField raw "body").truthy then ownField raw "body"
  else .obj []

/-- The first truthy value of a list, if any. -/
def firstTruthy (vs : List JSVal) : Option JSVal := vs.find? JSVal.truthy

/-- The field `amount` of a valid result. -/
def Normalized.amount : Normalized → Option JSNum
  | .valid _ _ amount _ => some amount
  | .invalid _ => none

/-- The field `metric` of a valid result, when it is a string. -/
def Normalized.metricName : Normalized → Option String
  | .valid _ (.str s) _ _ => some s
  | _ => none

/-- The payload with `source: A` and a top-level `amount: 10`. -/
def rawTopAmount : JSVal := .obj [("source", .str "A"), ("amount", .int 10)]

/-- The payload with only a top-level `metric: m`. -/
def rawTopMetric : JSVal := .obj [("metric", .str "m")]

/-- A payload whose `payload` field is present but `null`. -/
def rawNullPayload : JSVal :=
  .obj [("payload", .null), ("data", .obj [("amount", .int 3)])]

/-- A payload without numeric and without timestamp fields. -/
def rawPlain : JSVal :=
  .obj [("client", .str "c7"), ("data", .obj [("metric", .str "login"), ("note", .str "hi")])]

/-- A payload already ingested into `storeOne`. -/
def rawStored : JSVal :=
  .obj [("source", .str "z"), ("body", .obj [("metric", .str "m"), ("amt", .int 2)])]

/-- A table with one stored row, that of `rawStored`. -/
def storeOne : Store :=
  [{ id := 4, event_hash := eventHash refHost rawStored, client_id := .str "z",
     canonical_metric := .str "m", canonical_amount := .fin 2, canonical_timestamp := now0,
     raw_payload := refHost.stringify rawStored, status := "processed",
     created_at := "2024-01-01 09:00:00" }]

/-- A payload whose data object lists `value: 5` before `amount: 10`. -/
def rawValueFirst : JSVal :=
  .obj [("source", .str "A"), ("payload", .obj [("value", .int 5), ("amount", .int 10)])]

/-- A payload whose data object lists `amount: 10` before `value: 5`. -/
def rawAmountFirst : JSVal :=
  .obj [("source", .str "A"), ("payload", .obj [("amount", .int 10), ("value", .int 5)])]

/-- A payload whose first candidate field, `Price`, holds not-a-number text,
ahead of `amount: 10`. -/
def rawNaNFirst : JSVal :=
  .obj [("source", .str "A"),
        ("payload", .obj [("note", .int 1), ("Price", .str "n/a"), ("amount", .int 10)])]

/-- A payload whose only numeric field, `count`, is not a candidate. -/
def rawCount : JSVal := .obj [("payload", .obj [("count", .int 7)])]

/-- A payload whose timestamp does not parse. -/
def rawBadDate : JSVal :=
  .obj [("source", .str "s"),
        ("payload", .obj [("timestamp", .str ""), ("date", .str "yesterday"),
                          ("ts", .str "2024-01-01T10:00:00.000Z"), ("cost", .int 3)])]

/-! # Theorems -/

/-! ## Lemmas on the store operations -/

theorem find_none_of_fresh (store : Store) (h : String)
    (hfresh : ∀ r ∈ store, r.event_hash ≠ h) :
    (store.find? fun r => r.event_hash = h) = none := by
  rw [List.find?_eq_none]
  intro r hr
  simpa using hfresh r hr

theorem any_false_of_fresh (store : Store) (h : String)
    (hfresh : ∀ r ∈ store, r.event_hash ≠ h) :
    (store.any fun r => r.event_hash = h) = false := by
  rw [List.any_eq_false]
  intro r hr
  simpa using hfresh r hr

theorem find_some_of_stored (store : Store) (h : String)
    (hmem : ∃ r ∈ store, r.event_hash = h) :
    ∃ r, (store.find? fun r => r.event_hash = h) = some r := by
  cases hf : store.find? fun r => r.event_hash = h with
  | some r => exact ⟨r, rfl⟩
  | none =>
    rw [List.find?_eq_none] at hf
    obtain ⟨r, hr, he⟩ := hmem
    exact absurd (by simpa using he) (hf r hr)

theorem includes_uniqueViolation : includes uniqueViolation "UNIQUE constraint failed" = true := by
  rfl

theorem normalizeEvent_undefined (host : Host) (now : String) :
    (normalizeEvent host now .undefined).isValid = false := by
  rfl

theorem ingestInsert_fresh (store : Store) (a : InsertArgs) (dbNow : String)
    (hfresh : ∀ r ∈ store, r.event_hash ≠ a.event_hash) :
    ingestInsert store a dbNow none
      = (store ++ [insertedRow store a dbNow], createdResponse (nextId store)) := by
  simp [ingestInsert, dbInsert, any_false_of_fresh store a.event_hash hfresh, insertedRow]

theorem ingestInsert_stored (store : Store) (a : InsertArgs) (dbNow : String)
    (hmem : ∃ r ∈ store, r.event_hash = a.event_hash) :
    ingestInsert store a dbNow none = (store, raceResponse) := by
  have hany : (store.any fun r => r.event_hash = a.event_hash) = true := by
    rw [List.any_eq_true]
    obtain ⟨r, hr, he⟩ := hmem
    exact ⟨r, hr, by simpa using he⟩
  simp [ingestInsert, dbInsert, hany, includes_uniqueViolation]

theorem ingest_stored (host : Host) (store : Store) (req : Request) (amb : Ambient)
    (hdef : req.event.isUndefined = false) (hget : amb.getFault = none)
    (hmem : ∃ r ∈ store, r.event_hash = eventHash host req.event) :
    ingest host store req amb = (store, dedupResponse) := by
  obtain ⟨r, hr⟩ := find_some_of_stored store _ hmem
  simp only [eventHash] at hr
  simp [ingest, ingestLookup, hdef, hget, dbGet, hr]

theorem ingestLookup_fresh (host : Host) (store : Store) (req : Request) (now : String)
    (c m : JSVal) (x : JSNum) (t : String)
    (hnorm : normalizeEvent host now req.event = .valid c m x t)
    (hfresh : ∀ r ∈ store, r.event_hash ≠ eventHash host req.event) :
    ingestLookup host store req now none
      = if req.simulateFailure.truthy then
          .respond (errorResponse 500 "Simulated Internal Server Error")
        else .insert (insertArgsOf host req.event c m x t) := by
  have hdef : req.event.isUndefined = false := by
    cases hu : req.event.isUndefined with
    | false => rfl
    | true =>
      have : req.event = .undefined := by
        cases hv : req.event <;> simp_all [JSVal.isUndefined]
      rw [this] at hnorm
      have := normalizeEvent_undefined host now
      rw [hnorm] at this
      simp [Normalized.isValid] at this
  have hf := find_none_of_fresh store _ hfresh
  simp only [eventHash] at hf
  simp only [ingestLookup, hdef, dbGet, hf, hnorm, insertArgsOf, eventHash]
  simp

theorem valid_cases (n : Normalized) (h : n.isValid = true) :
    ∃ c m x t, n = .valid c m x t := by
  cases n with
  | valid c m x t => exact ⟨c, m, x, t, rfl⟩
  | invalid e => simp [Normalized.isValid] at h

theorem ingest_fresh (host : Host) (store : Store) (req : Request) (amb : Ambient)
    (c m : JSVal) (x : JSNum) (t : String)
    (hnorm : normalizeEvent host amb.now req.event = .valid c m x t)
    (hflag : req.simulateFailure.truthy = false)
    (hfresh : ∀ r ∈ store, r.event_hash ≠ eventHash host req.event)
    (hcalm : amb.calm) :
    ingest host store req amb
      = (store ++ [insertedRow store (insertArgsOf host req.event c m x t) amb.dbNow],
         createdResponse (nextId store)) := by
  obtain ⟨hg, hr⟩ := hcalm
  have hl := ingestLookup_fresh host store req amb.now c m x t hnorm hfresh
  rw [hflag] at hl
  simp only [ingest, hg, hr, hl]
  simp
  exact ingestInsert_fresh store _ amb.dbNow hfresh

theorem ingestAll_stored (host : Host) (store : Store) (raw flag : JSVal)
    (hdef : raw.isUndefined = false)
    (hmem : ∃ r ∈ store, r.event_hash = eventHash host raw) (ambs : List Ambient)
    (hcalm : ∀ a ∈ ambs, a.calm) :
    ingestAll host store (ambs.map fun a => (⟨raw, flag⟩, a))
      = (store, List.replicate ambs.length dedupResponse) := by
  induction ambs with
  | nil => rfl
  | cons a rest ih =>
    have h1 := ingest_stored host store ⟨raw, flag⟩ a hdef (hcalm a (by simp)).1 hmem
    have h2 := ih (fun b hb => hcalm b (by simp [hb]))
    simp only [List.map_cons, ingestAll, h1, h2, List.length_cons, List.replicate_succ]

/-- Claim C1 (idempotence of `POST /ingest` handled sequentially): for a
payload that `normalizeEvent` accepts, a table holding no row with the
payload's fingerprint and a store engine that does not fail, submitting the
payload `N = ambs.length + 1` times with `simulateFailure` falsy leaves the
table with exactly one more row, carrying that fingerprint, and the responses
are one `201` with the new id followed by `N - 1` deduplicated `200`. -/
theorem ingest_idempotent (host : Host) (store : Store) (raw flag : JSVal)
    (amb : Ambient) (ambs : List Ambient)
    (hvalid : (normalizeEvent host amb.now raw).isValid = true)
    (hflag : flag.truthy = false)
    (hfresh : ∀ r ∈ store, r.event_hash ≠ eventHash host raw)
    (hcalm : ∀ a ∈ amb :: ambs, a.calm) :
    ∃ row : Row,
      row.event_hash = eventHash host raw ∧
      ingestAll host store ((amb :: ambs).map fun a => (⟨raw, flag⟩, a))
        = (store ++ [row],
           createdResponse row.id :: List.replicate ambs.length dedupResponse) := by
  obtain ⟨c, m, x, t, hnorm⟩ := valid_cases _ hvalid
  have hdef : raw.isUndefined = false := by
    cases raw <;> first | rfl | exact absurd hvalid (by simp [normalizeEvent_undefined])
  refine ⟨insertedRow store (insertArgsOf host raw c m x t) amb.dbNow, rfl, ?_⟩
  have h1 := ingest_fresh host store ⟨raw, flag⟩ amb c m x t hnorm hflag hfresh
    (hcalm amb (by simp))
  have h2 := ingestAll_stored host
    (store ++ [insertedRow store (insertArgsOf host raw c m x t) amb.dbNow]) raw flag hdef
    ⟨insertedRow store (insertArgsOf host raw c m x t) amb.dbNow, by simp, rfl⟩ ambs
    (fun b hb => hcalm b (by simp [hb]))
  simp only [List.map_cons, ingestAll, h1, h2]
  rfl

/-- Three submissions of `rawB` on the table `storeOne`. -/
theorem ingest_idempotent_witness :
    ∃ row : Row,
      row.event_hash = eventHash refHost rawB ∧
      ingestAll refHost storeOne
          ([calm0, calm0, calm0].map fun a => (⟨rawB, .undefined⟩, a))
        = (storeOne ++ [row], createdResponse row.id :: List.replicate 2 dedupResponse) :=
  ingest_idempotent refHost storeOne rawB .undefined calm0 [calm0, calm0] (by rfl) (by rfl)
    (by decide) (by decide)

theorem ingestInsert_cases (store : Store) (a : InsertArgs) (dbNow : String)
    (fault : Option String) :
    (ingestInsert store a dbNow fault
        = (store ++ [insertedRow store a dbNow], createdResponse (nextId store)) ∧
      fault = none ∧ ∀ r ∈ store, r.event_hash ≠ a.event_hash) ∨
    ((ingestInsert store a dbNow fault).1 = store ∧
      ((ingestInsert store a dbNow fault).2 = raceResponse ∨
       (ingestInsert store a dbNow fault).2 = errorResponse 500 "Database write failed")) := by
  cases fault with
  | some msg =>
    right
    by_cases hinc : includes msg "UNIQUE constraint failed" = true <;>
      simp [ingestInsert, dbInsert, hinc]
  | none =>
    by_cases hany : (store.any fun r => r.event_hash = a.event_hash) = true
    · right
      simp [ingestInsert, dbInsert, hany, includes_uniqueViolation]
    · left
      have hfresh : ∀ r ∈ store, r.event_hash ≠ a.event_hash := by
        intro r hr he
        exact hany (List.any_eq_true.2 ⟨r, hr, by simpa using he⟩)
      exact ⟨ingestInsert_fresh store a dbNow hfresh, rfl, hfresh⟩

theorem ingestLookup_cases (host : Host) (store : Store) (req : Request) (now : String)
    (getFault : Option String) :
    (∃ r, ingestLookup host store req now getFault = .respond r ∧ r.status ≠ 201) ∨
    (∃ c m x t, ingestLookup host store req now getFault
        = .insert (insertArgsOf host req.event c m x t) ∧
      req.simulateFailure.truthy = false) := by
  cases hdef : req.event.isUndefined with
  | true =>
    left
    exact ⟨.uncaught updateTypeError, by simp [ingestLookup, hdef], by simp [Response.status]⟩
  | false =>
    cases hget : dbGet store (host.sha256 (host.stringify req.event)) getFault with
    | error e =>
      left
      exact ⟨errorResponse 500 "DB Error", by simp [ingestLookup, hdef, hget],
        by simp [Response.status, errorResponse]⟩
    | ok found =>
      cases found with
      | some row =>
        left
        exact ⟨dedupResponse, by simp [ingestLookup, hdef, hget],
          by simp [Response.status, dedupResponse]⟩
      | none =>
        cases hn : normalizeEvent host now req.event with
        | invalid e =>
          left
          exact ⟨errorResponse 400 "Normalization failed",
            by simp [ingestLookup, hdef, hget, hn], by simp [Response.status, errorResponse]⟩
        | valid c m x t =>
          cases hflag : req.simulateFailure.truthy with
          | true =>
            left
            exact ⟨errorResponse 500 "Simulated Internal Server Error",
              by simp [ingestLookup, hdef, hget, hn, hflag],
              by simp [Response.status, errorResponse]⟩
          | false =>
            right
            exact ⟨c, m, x, t,
              by simp [ingestLookup, hdef, hget, hn, hflag, insertArgsOf, eventHash], rfl⟩

/-- Claim C5 (zero persisted trace on every non-insert outcome): for every
table, payload, flag and ambient, either the request answers `201`, the table
gains exactly one row at its end (carrying the payload's fingerprint and the
id of the response) and the rows already stored are unchanged, or it answers
something other than `201` and the table after the request equals the table
before it.  The same holds for an insert executed on a table other than the
one its lookup saw. -/
theorem ingest_frame (host : Host) (store : Store) (req : Request) (amb : Ambient)
    (a : InsertArgs) (dbNow : String) (fault : Option String) :
    (((ingest host store req amb).2.status = 201 ∧
        ∃ row : Row, (ingest host store req amb).1 = store ++ [row] ∧
          row.event_hash = eventHash host req.event ∧
          (ingest host store req amb).2 = createdResponse row.id) ∨
      ((ingest host store req amb).2.status ≠ 201 ∧ (ingest host store req amb).1 = store)) ∧
    (((ingestInsert store a dbNow fault).2.status = 201 ∧
        ∃ row : Row, (ingestInsert store a dbNow fault).1 = store ++ [row] ∧
          row.event_hash = a.event_hash) ∨
      ((ingestInsert store a dbNow fault).2.status ≠ 201 ∧
        (ingestInsert store a dbNow fault).1 = store)) := by
  have key : ∀ (b : InsertArgs) (t : String) (f : Option String),
      ((ingestInsert store b t f).2.status = 201 ∧
        ∃ row : Row, (ingestInsert store b t f).1 = store ++ [row] ∧
          row.event_hash = b.event_hash ∧
          (ingestInsert store b t f).2 = createdResponse row.id) ∨
      ((ingestInsert store b t f).2.status ≠ 201 ∧ (ingestInsert store b t f).1 = store) := by
    intro b t f
    rcases ingestInsert_cases store b t f with ⟨h, -, -⟩ | ⟨h1, h2⟩
    · left
      rw [h]
      exact ⟨rfl, insertedRow store b t, rfl, rfl, rfl⟩
    · right
      refine ⟨?_, h1⟩
      rcases h2 with h2 | h2 <;> rw [h2] <;> simp [Response.status, raceResponse, errorResponse]
  constructor
  · rcases ingestLookup_cases host store req amb.now amb.getFault with
      ⟨r, hr, hs⟩ | ⟨c, m, x, t, hl, -⟩
    · right
      simp [ingest, hr, hs]
    · simp only [ingest, hl]
      exact key _ _ _
  · rcases key a dbNow fault with ⟨h, row, h1, h2, -⟩ | h
    · exact Or.inl ⟨h, row, h1, h2⟩
    · exact Or.inr h

theorem ingestInsert_invariant (store : Store) (a : InsertArgs) (dbNow : String)
    (fault : Option String) (hinv : StoreInvariant store) (hst : a.status = "processed") :
    StoreInvariant (ingestInsert store a dbNow fault).1 := by
  rcases ingestInsert_cases store a dbNow fault with ⟨h, -, hfresh⟩ | ⟨h, -⟩
  · rw [h]
    obtain ⟨hnd, hall⟩ := hinv
    constructor
    · simp only [List.map_append, List.map_cons, List.map_nil]
      rw [List.nodup_append]
      refine ⟨hnd, List.nodup_singleton _, ?_⟩
      intro x hx hx2
      simp only [List.mem_singleton] at hx2
      obtain ⟨r, hr, rfl⟩ := List.mem_map.1 hx
      exact hfresh r hr hx2
    · intro r hr
      rcases List.mem_append.1 hr with hr | hr
      · exact hall r hr
      · simp only [List.mem_singleton] at hr
        rw [hr]; exact hst
  · rw [h]; exact hinv

theorem ingest_invariant (host : Host) (store : Store) (req : Request) (amb : Ambient)
    (hinv : StoreInvariant store) : StoreInvariant (ingest host store req amb).1 := by
  rcases ingestLookup_cases host store req amb.now amb.getFault with
    ⟨r, hr, -⟩ | ⟨c, m, x, t, hl, -⟩
  · simpa [ingest, hr] using hinv
  · simp only [ingest, hl]
    exact ingestInsert_invariant store _ _ _ hinv rfl

theorem ingestAll_invariant (host : Host) (reqs : List (Request × Ambient)) :
    ∀ store : Store, StoreInvariant store → StoreInvariant (ingestAll host store reqs).1 := by
  induction reqs with
  | nil => intro store h; exact h
  | cons ra rest ih =>
    intro store h
    obtain ⟨req, amb⟩ := ra
    simp only [ingestAll]
    exact ih _ (ingest_invariant host store req amb h)

theorem step_invariant (host : Host) (σ : Sys) (act : Action) (hinv : SysInvariant σ) :
    SysInvariant (σ.step host act).1 := by
  obtain ⟨hs, hfl⟩ := hinv
  cases act with
  | arrive req now getFault =>
    rcases ingestLookup_cases host σ.store req now getFault with
      ⟨r, hr, -⟩ | ⟨c, m, x, t, hl, -⟩
    · simp only [Sys.step, hr]; exact ⟨hs, hfl⟩
    · simp only [Sys.step, hl]
      refine ⟨hs, ?_⟩
      intro a ha
      rcases List.mem_append.1 ha with ha | ha
      · exact hfl a ha
      · simp only [List.mem_singleton] at ha
        rw [ha]; rfl
  | commit i dbNow runFault =>
    cases hget : σ.inflight.get? i with
    | none => simp only [Sys.step, hget]; exact ⟨hs, hfl⟩
    | some a =>
      simp only [Sys.step, hget]
      have ha : a ∈ σ.inflight := List.get?_mem hget
      refine ⟨ingestInsert_invariant σ.store a dbNow runFault hs (hfl a ha), ?_⟩
      intro b hb
      exact hfl b (List.mem_of_mem_eraseIdx hb)

theorem run_invariant (host : Host) (acts : List Action) :
    ∀ σ : Sys, SysInvariant σ → SysInvariant (Sys.run host σ acts).1 := by
  induction acts with
  | nil => intro σ h; exact h
  | cons act rest ih =>
    intro σ h
    simp only [Sys.run]
    exact ih _ (step_invariant host σ act h)

/-- Claim C4 (store invariant): in every table reachable from the empty table,
by any schedule of lookups and inserts of concurrently handled requests and in
particular by any sequence of requests handled one after the other (any
payloads, any flags, any engine failures), the fingerprints of the stored rows
are pairwise distinct and every stored row has status `processed`. -/
theorem store_invariant (host : Host) (acts : List Action)
    (reqs : List (Request × Ambient)) :
    StoreInvariant (Sys.run host Sys.init acts).1.store ∧
    StoreInvariant (ingestAll host [] reqs).1 := by
  have h0 : StoreInvariant [] := ⟨List.nodup_nil, by simp⟩
  exact ⟨(run_invariant host acts Sys.init ⟨h0, by simp [Sys.init]⟩).1,
    ingestAll_invariant host reqs [] h0⟩

theorem ingest_flag_set (host : Host) (store : Store) (req : Request) (amb : Ambient)
    (hset : req.simulateFailure.truthy = true) :
    (ingest host store req amb).1 = store ∧ (ingest host store req amb).2.status ≠ 201 := by
  rcases ingestLookup_cases host store req amb.now amb.getFault with
    ⟨r, hr, hs⟩ | ⟨c, m, x, t, -, hflag⟩
  · simp [ingest, hr, hs]
  · rw [hset] at hflag; exact absurd hflag (by simp)

theorem ingestAll_append (host : Host) (xs ys : List (Request × Ambient)) :
    ∀ store : Store, ingestAll host store (xs ++ ys)
      = ((ingestAll host (ingestAll host store xs).1 ys).1,
         (ingestAll host store xs).2 ++ (ingestAll host (ingestAll host store xs).1 ys).2) := by
  induction xs with
  | nil => intro store; simp [ingestAll]
  | cons x rest ih =>
    intro store
    obtain ⟨req, amb⟩ := x
    have h : ingestAll host (ingest host store req amb).1 (rest.append ys) = _ :=
      ih (ingest host store req amb).1
    simp only [List.cons_append, ingestAll]
    rw [h]

theorem ingestAll_flag_set (host : Host) (raw flag : JSVal) (hset : flag.truthy = true)
    (ambs : List Ambient) :
    ∀ store : Store, (ingestAll host store (ambs.map fun a => (⟨raw, flag⟩, a))).1 = store := by
  induction ambs with
  | nil => intro store; rfl
  | cons a rest ih =>
    intro store
    simp only [List.map_cons, ingestAll]
    rw [(ingest_flag_set host store ⟨raw, flag⟩ a hset).1]
    exact ih store

/-- Claim C2 (retry-after-failure safety of `POST /ingest` handled
sequentially): for a payload that `normalizeEvent` accepts and a table holding
no row with the payload's fingerprint, submitting the payload `k =
fails.length` times with `simulateFailure` set and then once with it unset (on
a store engine that does not fail) results in exactly one more row, carrying
that fingerprint: after each of the failed attempts the table is unchanged, and
the final attempt is answered `201` as a first-time event. -/
theorem retry_after_failure (host : Host) (store : Store) (raw flagSet flagUnset : JSVal)
    (fails : List Ambient) (amb : Ambient)
    (hvalid : (normalizeEvent host amb.now raw).isValid = true)
    (hset : flagSet.truthy = true) (hunset : flagUnset.truthy = false)
    (hfresh : ∀ r ∈ store, r.event_hash ≠ eventHash host raw)
    (hcalm : amb.calm) :
    (∀ j : Nat,
      (ingestAll host store ((fails.take j).map fun a => (⟨raw, flagSet⟩, a))).1 = store) ∧
    ∃ row : Row,
      row.event_hash = eventHash host raw ∧
      ingestAll host store
          ((fails.map fun a => (⟨raw, flagSet⟩, a)) ++ [(⟨raw, flagUnset⟩, amb)])
        = (store ++ [row],
           (ingestAll host store (fails.map fun a => (⟨raw, flagSet⟩, a))).2
             ++ [createdResponse row.id]) := by
  obtain ⟨c, m, x, t, hnorm⟩ := valid_cases _ hvalid
  refine ⟨fun j => ingestAll_flag_set host raw flagSet hset _ store,
    insertedRow store (insertArgsOf host raw c m x t) amb.dbNow, rfl, ?_⟩
  have h1 := ingest_fresh host store ⟨raw, flagUnset⟩ amb c m x t hnorm hunset hfresh hcalm
  rw [ingestAll_append, ingestAll_flag_set host raw flagSet hset fails store]
  simp only [ingestAll, h1]
  rfl

/-- Two failed attempts with `rawB` on the table `storeOne`, then a retry. -/
theorem retry_after_failure_witness :
    (∀ j : Nat,
      (ingestAll refHost storeOne (([calm0, calm0].take j).map
        fun a => (⟨rawB, .bool true⟩, a))).1 = storeOne) ∧
    ∃ row : Row,
      row.event_hash = eventHash refHost rawB ∧
      ingestAll refHost storeOne
          (([calm0, calm0].map fun a => (⟨rawB, .bool true⟩, a))
            ++ [(⟨rawB, .undefined⟩, calm0)])
        = (storeOne ++ [row],
           (ingestAll refHost storeOne
              ([calm0, calm0].map fun a => (⟨rawB, .bool true⟩, a))).2
             ++ [createdResponse row.id]) :=
  retry_after_failure refHost storeOne rawB (.bool true) .undefined [calm0, calm0] calm0
    (by rfl) (by rfl) (by rfl) (by decide) (by decide)

/-- Claim C8, as amended: with `simulateFailure` set, on every table and for
every payload, no row is written and the answer is never `201`; the answer is
`500` with error `Simulated Internal Server Error` exactly when the payload
is defined, the lookup succeeds and finds no row with the payload's
fingerprint, and `normalizeEvent` accepts the payload. -/
theorem failure_injection (host : Host) (store : Store) (req : Request) (amb : Ambient)
    (hset : req.simulateFailure.truthy = true) :
    (ingest host store req amb).1 = store ∧
    (ingest host store req amb).2.status ≠ 201 ∧
    ((ingest host store req amb).2 = errorResponse 500 "Simulated Internal Server Error" ↔
      (req.event.isUndefined = false ∧
       dbGet store (eventHash host req.event) amb.getFault = .ok none ∧
       (normalizeEvent host amb.now req.event).isValid = true)) := by
  refine ⟨(ingest_flag_set host store req amb hset).1,
    (ingest_flag_set host store req amb hset).2, ?_⟩
  cases hdef : req.event.isUndefined with
  | true => simp [ingest, ingestLookup, hdef, errorResponse]
  | false =>
    cases hget : dbGet store (host.sha256 (host.stringify req.event)) amb.getFault with
    | error e => simp [ingest, ingestLookup, hdef, hget, errorResponse, eventHash]
    | ok found =>
      cases found with
      | some row =>
        simp [ingest, ingestLookup, hdef, hget, errorResponse, eventHash, dedupResponse]
      | none =>
        cases hn : normalizeEvent host amb.now req.event with
        | invalid e =>
          simp [ingest, ingestLookup, hdef, hget, hn, errorResponse, eventHash,
            Normalized.isValid]
        | valid c m x t =>
          simp [ingest, ingestLookup, hdef, hget, hn, hset, errorResponse, eventHash,
            Normalized.isValid]

theorem getProp_ok (v : JSVal) (key : String) (h : v.isNullish = false) :
    getProp v key = .ok (ownField v key) := by
  cases v <;> first | rfl | simp [JSVal.isNullish] at h

theorem ownEntries_nullish (v : JSVal) (h : v.isNullish = true) : ownEntries v = [] := by
  cases v <;> first | rfl | simp [JSVal.isNullish] at h

theorem lookupField_append (key : String) (pre sfx : List (String × JSVal))
    (hpre : ∀ kv ∈ pre, kv.1 ≠ key) :
    lookupField key (pre ++ sfx) = lookupField key sfx := by
  induction pre with
  | nil => rfl
  | cons kv rest ih =>
    obtain ⟨k, v⟩ := kv
    have hk : k ≠ key := hpre (k, v) (by simp)
    simp only [List.cons_append, lookupField, hk, if_false]
    exact ih (fun kv h => hpre kv (by simp [h]))

theorem amountLoop_eq (host : Host) (data : JSVal) (x : JSNum) (sfx : List (String × JSVal)) :
    ∀ pre : List (String × JSVal), ownEntries data = pre ++ sfx →
      (∀ kv ∈ pre, amountKeys.contains (toLowerCase kv.1) = false) →
      amountLoop host data x (sfx.map Prod.fst)
        = match sfx.find? fun kv => amountKeys.contains (toLowerCase kv.1) with
          | none => .ok x
          | some kv => parseFloat host kv.2 := by
  induction sfx with
  | nil => intro pre _ _; rfl
  | cons kv rest ih =>
    intro pre hent hpre
    obtain ⟨k, v⟩ := kv
    cases hk : amountKeys.contains (toLowerCase k) with
    | true =>
      have hnn : data.isNullish = false := by
        cases hnull : data.isNullish with
        | false => rfl
        | true => rw [ownEntries_nullish data hnull] at hent; simp at hent
      have hlook : ownField data k = v := by
        unfold ownField
        rw [hent, lookupField_append k pre _ ?_]
        · simp [lookupField]
        · intro kv hkv heq
          have := hpre kv hkv
          rw [heq, hk] at this
          exact absurd this (by simp)
      simp only [List.map_cons, amountLoop, hk, if_true, getProp_ok data k hnn, hlook,
        List.find?_cons]
    | false =>
      simp only [List.map_cons, amountLoop, hk, List.find?_cons]
      have := ih (pre ++ [(k, v)]) (by simp [hent]) (by
        intro kv hkv
        rcases List.mem_append.1 hkv with h | h
        · exact hpre kv h
        · simp only [List.mem_singleton] at h
          rw [h]; exact hk)
      simpa using this

theorem extractAmount_eq_spec (host : Host) (data : JSVal) :
    extractAmount host data = amountSpec host data := by
  have h := amountLoop_eq host data (.fin 0) (ownEntries data) [] rfl (by simp)
  unfold extractAmount amountSpec objectKeys
  rw [h]
  cases hf : (ownEntries data).find? fun kv => amountKeys.contains (toLowerCase kv.1) with
  | none => rfl
  | some kv =>
    simp only

theorem truthy_not_nullish (v : JSVal) (h : v.truthy = true) : v.isNullish = false := by
  cases v <;> first | rfl | simp [JSVal.truthy] at h

theorem dataObject_nullish (raw : JSVal) (h : raw.isNullish = true) :
    ∃ e, dataObject raw = .error e := by
  cases raw <;> first | exact ⟨_, rfl⟩ | simp [JSVal.isNullish] at h

theorem dataObject_eq (raw : JSVal) (hraw : raw.isNullish = false) :
    dataObject raw = .ok (selectedData raw) := by
  simp only [dataObject, selectedData, getProp_ok raw _ hraw, jsOr, bind, Except.bind, pure,
    Except.pure]
  cases hp : (ownField raw "payload").truthy <;> cases hd : (ownField raw "data").truthy <;>
    cases hb : (ownField raw "body").truthy <;> simp [hp, hd, hb]

theorem selectedData_not_nullish (raw : JSVal) : (selectedData raw).isNullish = false := by
  unfold selectedData
  split
  · next h => exact truthy_not_nullish _ h
  · split
    · next h => exact truthy_not_nullish _ h
    · split
      · next h => exact truthy_not_nullish _ h
      · rfl

theorem dataObject_ok_inv (raw data : JSVal) (h : dataObject raw = .ok data) :
    raw.isNullish = false ∧ data = selectedData raw := by
  cases hn : raw.isNullish with
  | true =>
    obtain ⟨e, he⟩ := dataObject_nullish raw hn
    rw [he] at h; cases h
  | false =>
    rw [dataObject_eq raw hn] at h
    injection h with h
    exact ⟨rfl, h.symm⟩

theorem lookupField_none (key : String) (es : List (String × JSVal))
    (h : key ∉ es.map Prod.fst) : lookupField key es = none := by
  induction es with
  | nil => rfl
  | cons kv rest ih =>
    obtain ⟨k, v⟩ := kv
    simp only [List.map_cons, List.mem_cons, not_or] at h
    have hk : k ≠ key := fun e => h.1 e.symm
    simp only [lookupField, hk, if_false]
    exact ih h.2

theorem ownField_absent (v : JSVal) (key : String) (h : key ∉ objectKeys v) :
    ownField v key = .undefined := by
  unfold ownField
  rw [lookupField_none key _ h]
  rfl

theorem find_none_of_no_key (es : List (String × JSVal))
    (h : ∀ k ∈ es.map Prod.fst, amountKeys.contains (toLowerCase k) = false) :
    (es.find? fun kv => amountKeys.contains (toLowerCase kv.1)) = none := by
  rw [List.find?_eq_none]
  intro kv hkv
  have := h kv.1 (List.mem_map.2 ⟨kv, hkv, rfl⟩)
  simpa using this

theorem normalizeBody_eq (host : Host) (now : String) (raw : JSVal)
    (hraw : raw.isNullish = false) :
    normalizeBody host now raw
      = match extractAmount host (selectedData raw) with
        | .error e => .error e
        | .ok amount =>
          match host.dateISO (jsOr (jsOr (jsOr (ownField (selectedData raw) "timestamp")
              (ownField (selectedData raw) "date")) (ownField (selectedData raw) "ts"))
              (.str now)) with
          | .error e => .error e
          | .ok timestamp =>
            .ok (.valid (jsOr (jsOr (ownField raw "source") (ownField raw "client"))
                (.str "unknown"))
              (jsOr (ownField (selectedData raw) "metric") (.str "generic_event"))
              amount timestamp) := by
  have hd := selectedData_not_nullish raw
  simp only [normalizeBody, dataObject_eq raw hraw, dateStr, getProp_ok raw _ hraw,
    getProp_ok _ _ hd, bind, Except.bind, pure, Except.pure]
  cases extractAmount host (selectedData raw) with
  | error e => rfl
  | ok amount =>
    simp only
    cases ht : (ownField (selectedData raw) "timestamp").truthy <;>
      cases hdt : (ownField (selectedData raw) "date").truthy <;>
      cases hs : (ownField raw "source").truthy <;>
      simp only [jsOr, ht, hdt, hs, if_true, if_false, Bool.false_eq_true] <;>
      cases host.dateISO _ <;> rfl

theorem normalizeEvent_nullish (host : Host) (now : String) (raw : JSVal) (e : String)
    (he : dataObject raw = .error e) : normalizeEvent host now raw = .invalid e := by
  simp [normalizeEvent, normalizeBody, he, bind, Except.bind]

theorem normalizeEvent_eq (host : Host) (now : String) (raw : JSVal)
    (hraw : raw.isNullish = false) :
    normalizeEvent host now raw
      = match amountSpec host (selectedData raw) with
        | .error e => .invalid e
        | .ok amount =>
          match host.dateISO (jsOr (jsOr (jsOr (ownField (selectedData raw) "timestamp")
              (ownField (selectedData raw) "date")) (ownField (selectedData raw) "ts"))
              (.str now)) with
          | .error e => .invalid e
          | .ok timestamp =>
            .valid (jsOr (jsOr (ownField raw "source") (ownField raw "client"))
                (.str "unknown"))
              (jsOr (ownField (selectedData raw) "metric") (.str "generic_event"))
              amount timestamp := by
  rw [normalizeEvent, normalizeBody_eq host now raw hraw, extractAmount_eq_spec]
  cases amountSpec host (selectedData raw) with
  | error e => rfl
  | ok a =>
    simp only
    cases host.dateISO _ <;> rfl

/-- Claim C7 (amount extraction is positional): `normalizeEvent` is determined
by the amount the specification describes.  On every host, clock and payload,
the result of `normalizeEvent` is invalid when the payload has no data object;
otherwise, with `d` the data object, it is invalid when the parse of the first
candidate field or the date conversion throws, and else it is the valid record
whose amount is `amountSpec host d`: the parsed value of the first field of
`d`, in the object's own field order, whose lowercased name is one of
`amount`, `cost`, `value`, `price`, `amt`, whatever the rank of that name and
whatever candidate fields follow, and `0` when no field matches or that value
parses to not-a-number.  The loop of the source computes that amount on every
data object.  For the data object with `value: 5` before `amount: 10`
`normalizeEvent` returns amount `5` whenever the date conversion succeeds,
with the two fields swapped amount `10`, with a not-a-number first candidate
before `amount: 10` amount `0` on the evaluation host, and with only a
`count: 7` field amount `0`. -/
theorem amount_positional (host : Host) (now : String) (raw data : JSVal) :
    (normalizeEvent host now raw
      = match dataObject raw with
        | .error e => .invalid e
        | .ok d =>
          match amountSpec host d with
          | .error e => .invalid e
          | .ok amount =>
            match host.dateISO (jsOr (jsOr (jsOr (ownField d "timestamp")
                (ownField d "date")) (ownField d "ts")) (.str now)) with
            | .error e => .invalid e
            | .ok timestamp =>
              .valid (jsOr (jsOr (ownField raw "source") (ownField raw "client"))
                  (.str "unknown"))
                (jsOr (ownField d "metric") (.str "generic_event")) amount timestamp) ∧
    extractAmount host data = amountSpec host data ∧
    normalizeEvent host now rawValueFirst
      = (match host.dateISO (.str now) with
         | .ok t => .valid (.str "A") (.str "generic_event") (.fin 5) t
         | .error e => .invalid e) ∧
    normalizeEvent host now rawAmountFirst
      = (match host.dateISO (.str now) with
         | .ok t => .valid (.str "A") (.str "generic_event") (.fin 10) t
         | .error e => .invalid e) ∧
    normalizeEvent host now rawCount
      = (match host.dateISO (.str now) with
         | .ok t => .valid (.str "unknown") (.str "generic_event") (.fin 0) t
         | .error e => .invalid e) ∧
    normalizeEvent refHost now0 rawValueFirst
      = .valid (.str "A") (.str "generic_event") (.fin 5) now0 ∧
    normalizeEvent refHost now0 rawNaNFirst
      = .valid (.str "A") (.str "generic_event") (.fin 0) now0 ∧
    extractAmount host (.obj [("value", .int 5), ("amount", .int 10)]) = .ok (.fin 5) ∧
    extractAmount host (.obj [("amount", .int 10), ("value", .int 5)]) = .ok (.fin 10) ∧
    extractAmount host (.obj [("note", .str "x"), ("Price", .num .nan), ("amount", .int 10)])
      = .ok (.fin 0) := by
  refine ⟨?_, extractAmount_eq_spec host data, ?_, ?_, ?_, rfl, rfl, rfl, rfl, rfl⟩
  · cases hraw : raw.isNullish with
    | true =>
      obtain ⟨e, he⟩ := dataObject_nullish raw hraw
      rw [he]
      exact normalizeEvent_nullish host now raw e he
    | false =>
      rw [dataObject_eq raw hraw]
      exact normalizeEvent_eq host now raw hraw
  · have hs : selectedData rawValueFirst = .obj [("value", .int 5), ("amount", .int 10)] := rfl
    have hc : jsOr (jsOr (ownField rawValueFirst "source") (ownField rawValueFirst "client"))
        (.str "unknown") = .str "A" := rfl
    have ha : amountSpec host (.obj [("value", .int 5), ("amount", .int 10)])
        = .ok (.fin 5) := rfl
    rw [normalizeEvent_eq host now rawValueFirst rfl, hs, hc, ha]
    cases hd : host.dateISO (.str now) <;>
      simp [ownField, ownEntries, lookupField, jsOr, JSVal.truthy, hd]
  · have hs : selectedData rawAmountFirst = .obj [("amount", .int 10), ("value", .int 5)] := rfl
    have hc : jsOr (jsOr (ownField rawAmountFirst "source") (ownField rawAmountFirst "client"))
        (.str "unknown") = .str "A" := rfl
    have ha : amountSpec host (.obj [("amount", .int 10), ("value", .int 5)])
        = .ok (.fin 10) := rfl
    rw [normalizeEvent_eq host now rawAmountFirst rfl, hs, hc, ha]
    cases hd : host.dateISO (.str now) <;>
      simp [ownField, ownEntries, lookupField, jsOr, JSVal.truthy, hd]
  · have hs : selectedData rawCount = .obj [("count", .int 7)] := rfl
    have hc : jsOr (jsOr (ownField rawCount "source") (ownField rawCount "client"))
        (.str "unknown") = .str "unknown" := rfl
    have ha : amountSpec host (.obj [("count", .int 7)]) = .ok (.fin 0) := rfl
    rw [normalizeEvent_eq host now rawCount rfl, hs, hc, ha]
    cases hd : host.dateISO (.str now) <;>
      simp [ownField, ownEntries, lookupField, jsOr, JSVal.truthy, hd]

/-- Claim C6 fails as stated: for the payload with `source: A` and a top-level
`amount: 10`, which has none of the fields `payload`, `data`, `body`, the data
object is the empty object and the extracted amount is `0`, not `10`; for the
payload with only `metric: m` the metric is `generic_event`, not `m`; and a
`payload` field that is present but `null` is passed over for `data`. -/
theorem dataObject_whole_payload_counterexample :
    dataObject rawTopAmount = .ok (.obj []) ∧
    (normalizeEvent refHost now0 rawTopAmount).amount = some (.fin 0) ∧
    (normalizeEvent refHost now0 rawTopAmount).amount ≠ some (.fin 10) ∧
    (normalizeEvent refHost now0 rawTopMetric).metricName = some "generic_event" ∧
    (normalizeEvent refHost now0 rawTopMetric).metricName ≠ some "m" ∧
    dataObject rawNullPayload = .ok (.obj [("amount", .int 3)]) := by
  refine ⟨rfl, rfl, ?_, rfl, ?_, rfl⟩
  · have h : (normalizeEvent refHost now0 rawTopAmount).amount = some (.fin 0) := rfl
    rw [h]
    intro hc
    injection hc with hc
    injection hc with hc
    exact absurd hc (by norm_num)
  · have h : (normalizeEvent refHost now0 rawTopMetric).metricName = some "generic_event" := rfl
    rw [h]
    decide

/-- Claim C6, as amended: for every payload other than `null` and `undefined`
the data object is the first truthy of the payload's fields `payload`, `data`,
`body`, in that priority order, and the empty object when none is truthy (the
payload's own top-level fields are not scanned); so on every host the payload
with `source: A` and top-level `amount: 10` has amount `0`, and the payload
with only `metric: m` has metric `generic_event`. -/
theorem dataObject_selection (host : Host) (now : String) (raw : JSVal)
    (hraw : raw.isNullish = false) :
    dataObject raw = .ok (selectedData raw) ∧
    normalizeEvent host now rawTopAmount
      = (match host.dateISO (.str now) with
         | .ok t => .valid (.str "A") (.str "generic_event") (.fin 0) t
         | .error e => .invalid e) ∧
    normalizeEvent host now rawTopMetric
      = (match host.dateISO (.str now) with
         | .ok t => .valid (.str "unknown") (.str "generic_event") (.fin 0) t
         | .error e => .invalid e) := by
  refine ⟨dataObject_eq raw hraw, ?_, ?_⟩
  · have hs : selectedData rawTopAmount = .obj [] := rfl
    have hc : jsOr (jsOr (ownField rawTopAmount "source") (ownField rawTopAmount "client"))
        (.str "unknown") = .str "A" := rfl
    rw [normalizeEvent, normalizeBody_eq host now rawTopAmount rfl, hs, hc]
    cases hd : host.dateISO (.str now) <;>
      simp [extractAmount, amountLoop, objectKeys, ownEntries, ownField, lookupField, jsOr,
        JSVal.truthy, JSNum.isNaN, hd]
  · have hs : selectedData rawTopMetric = .obj [] := rfl
    have hc : jsOr (jsOr (ownField rawTopMetric "source") (ownField rawTopMetric "client"))
        (.str "unknown") = .str "unknown" := rfl
    rw [normalizeEvent, normalizeBody_eq host now rawTopMetric rfl, hs, hc]
    cases hd : host.dateISO (.str now) <;>
      simp [extractAmount, amountLoop, objectKeys, ownEntries, ownField, lookupField, jsOr,
        JSVal.truthy, JSNum.isNaN, hd]

/-- The selection at the payload `rawB`, whose `payload` field is an object. -/
theorem dataObject_selection_witness :
    dataObject rawB = .ok (selectedData rawB) ∧
    normalizeEvent refHost now0 rawTopAmount
      = (match refHost.dateISO (.str now0) with
         | .ok t => .valid (.str "A") (.str "generic_event") (.fin 0) t
         | .error e => .invalid e) ∧
    normalizeEvent refHost now0 rawTopMetric
      = (match refHost.dateISO (.str now0) with
         | .ok t => .valid (.str "unknown") (.str "generic_event") (.fin 0) t
         | .error e => .invalid e) :=
  dataObject_selection refHost now0 rawB (by rfl)

/-- Claim C9 fails as stated: the payload `null` has no amount-candidate field
and no `timestamp`, `date` or `ts` field, yet `normalizeEvent` returns an
invalid result for it and `POST /ingest` rejects it with `400`, writing
nothing. -/
theorem default_coercion_counterexample :
    (normalizeEvent refHost now0 .null).isValid = false ∧
    ingest refHost [] ⟨.null, .undefined⟩ calm0
      = ([], errorResponse 400 "Normalization failed") :=
  ⟨rfl, rfl⟩

/-- Claim C9, as amended (default coercion): for every payload other than
`null` and `undefined` (one that has a data object) whose data object has no
amount-candidate field and no `timestamp`, `date` or `ts` field, on a host
whose clock reading parses back to itself, `normalizeEvent` returns a valid
record with amount `0`, timestamp the receipt time, metric the data object's
`metric` or else `generic_event`, client id the payload's `source` or
`client` or else `unknown`; and `POST /ingest` (flag falsy, fingerprint not
stored, store engine not failing) answers `201` and appends that record with
`canonical_amount = 0` and status `processed`. -/
theorem default_coercion (host : Host) (store : Store) (raw data flag : JSVal)
    (amb : Ambient)
    (hdata : dataObject raw = .ok data)
    (hamt : ∀ k ∈ objectKeys data, amountKeys.contains (toLowerCase k) = false)
    (hts : ∀ k ∈ ["timestamp", "date", "ts"], k ∉ objectKeys data)
    (hclock : host.dateISO (.str amb.now) = .ok amb.now)
    (hflag : flag.truthy = false)
    (hfresh : ∀ r ∈ store, r.event_hash ≠ eventHash host raw)
    (hcalm : amb.calm) :
    normalizeEvent host amb.now raw
      = .valid (jsOr (jsOr (ownField raw "source") (ownField raw "client")) (.str "unknown"))
          (jsOr (ownField data "metric") (.str "generic_event")) (.fin 0) amb.now ∧
    ingest host store ⟨raw, flag⟩ amb
      = (store ++ [{ id := nextId store, event_hash := eventHash host raw,
                     client_id := jsOr (jsOr (ownField raw "source") (ownField raw "client"))
                       (.str "unknown"),
                     canonical_metric := jsOr (ownField data "metric") (.str "generic_event"),
                     canonical_amount := .fin 0, canonical_timestamp := amb.now,
                     raw_payload := host.stringify raw, status := "processed",
                     created_at := amb.dbNow }],
         createdResponse (nextId store)) := by
  obtain ⟨hraw, hsel⟩ := dataObject_ok_inv raw data hdata
  have hnorm : normalizeEvent host amb.now raw
      = .valid (jsOr (jsOr (ownField raw "source") (ownField raw "client")) (.str "unknown"))
          (jsOr (ownField data "metric") (.str "generic_event")) (.fin 0) amb.now := by
    have ha : extractAmount host data = .ok (.fin 0) := by
      rw [extractAmount_eq_spec]
      unfold amountSpec
      rw [find_none_of_no_key _ hamt]
    have h1 := ownField_absent data "timestamp" (hts _ (by simp))
    have h2 := ownField_absent data "date" (hts _ (by simp))
    have h3 := ownField_absent data "ts" (hts _ (by simp))
    rw [normalizeEvent, normalizeBody_eq host amb.now raw hraw, ← hsel, ha, h1, h2, h3]
    simp [jsOr, JSVal.truthy, hclock]
  exact ⟨hnorm, ingest_fresh host store ⟨raw, flag⟩ amb _ _ _ _ hnorm hflag hfresh hcalm⟩

/-- The payload `rawPlain` on the table `storeOne`. -/
theorem default_coercion_witness :
    normalizeEvent refHost calm0.now rawPlain
      = .valid (jsOr (jsOr (ownField rawPlain "source") (ownField rawPlain "client"))
            (.str "unknown"))
          (jsOr (ownField (.obj [("metric", .str "login"), ("note", .str "hi")]) "metric")
            (.str "generic_event")) (.fin 0) calm0.now ∧
    ingest refHost storeOne ⟨rawPlain, .bool false⟩ calm0
      = (storeOne ++
          [{ id := nextId storeOne, event_hash := eventHash refHost rawPlain,
             client_id := jsOr (jsOr (ownField rawPlain "source")
               (ownField rawPlain "client")) (.str "unknown"),
             canonical_metric := jsOr (ownField
               (.obj [("metric", .str "login"), ("note", .str "hi")]) "metric")
               (.str "generic_event"),
             canonical_amount := .fin 0, canonical_timestamp := calm0.now,
             raw_payload := refHost.stringify rawPlain, status := "processed",
             created_at := calm0.dbNow }],
         createdResponse (nextId storeOne)) :=
  default_coercion refHost storeOne rawPlain
    (.obj [("metric", .str "login"), ("note", .str "hi")]) (.bool false) calm0
    (by rfl) (by decide) (by decide) (by rfl) (by rfl) (by decide) (by decide)

/-- Claim C10 (unparsable timestamps are rejected, not defaulted): for every
payload whose data object's first truthy field among `timestamp`, `date`, `ts`
holds a value for which `new Date(v).toISOString()` throws, `normalizeEvent`
returns (it is a total function) an invalid result carrying an error string,
with no fallback to the receipt time; and `POST /ingest`, on a table not
holding the payload's fingerprint and with a working lookup, answers `400`
with error `Normalization failed` and leaves the table unchanged, whatever the
flag. -/
theorem bad_timestamp_rejected (host : Host) (store : Store) (raw data v flag : JSVal)
    (msg : String) (amb : Ambient)
    (hdata : dataObject raw = .ok data)
    (hv : firstTruthy [ownField data "timestamp", ownField data "date", ownField data "ts"]
      = some v)
    (hbad : host.dateISO v = .error msg)
    (hfresh : ∀ r ∈ store, r.event_hash ≠ eventHash host raw)
    (hget : amb.getFault = none) :
    (∃ e, normalizeEvent host amb.now raw = .invalid e) ∧
    (normalizeEvent host amb.now raw).isValid = false ∧
    ingest host store ⟨raw, flag⟩ amb = (store, errorResponse 400 "Normalization failed") := by
  obtain ⟨hraw, hsel⟩ := dataObject_ok_inv raw data hdata
  have hds : jsOr (jsOr (jsOr (ownField data "timestamp") (ownField data "date"))
      (ownField data "ts")) (.str amb.now) = v := by
    simp only [firstTruthy, List.find?_cons, List.find?_nil] at hv
    cases ht : (ownField data "timestamp").truthy <;>
      cases hd : (ownField data "date").truthy <;>
      cases hs : (ownField data "ts").truthy <;>
      simp [ht, hd, hs] at hv <;> subst hv <;> simp [jsOr, ht, hd, hs]
  have hinv : ∃ e, normalizeEvent host amb.now raw = .invalid e := by
    rw [normalizeEvent, normalizeBody_eq host amb.now raw hraw, ← hsel, hds, hbad]
    cases extractAmount host data with
    | error e => exact ⟨e, rfl⟩
    | ok x => exact ⟨msg, rfl⟩
  obtain ⟨e, he⟩ := hinv
  refine ⟨⟨e, he⟩, by rw [he]; rfl, ?_⟩
  have hdef : raw.isUndefined = false := by
    cases raw <;> first | rfl | simp [JSVal.isNullish] at hraw
  have hf := find_none_of_fresh store _ hfresh
  simp only [eventHash] at hf
  simp [ingest, ingestLookup, hdef, hget, dbGet, hf, he]

/-- The payload `rawBadDate`, whose first truthy date field is `yesterday`. -/
theorem bad_timestamp_rejected_witness :
    (∃ e, normalizeEvent refHost calm0.now rawBadDate = .invalid e) ∧
    (normalizeEvent refHost calm0.now rawBadDate).isValid = false ∧
    ingest refHost storeOne ⟨rawBadDate, .undefined⟩ calm0
      = (storeOne, errorResponse 400 "Normalization failed") :=
  bad_timestamp_rejected refHost storeOne rawBadDate
    (.obj [("timestamp", .str ""), ("date", .str "yesterday"),
           ("ts", .str "2024-01-01T10:00:00.000Z"), ("cost", .int 3)])
    (.str "yesterday") .undefined "Invalid time value" calm0
    (by rfl) (by rfl) (by rfl) (by decide) (by rfl)

/-- Claim C8 fails as stated: with `simulateFailure` set, a payload whose
fingerprint is already stored is answered `200` deduplicated by the fast path,
and the payload `null` is answered `400`; neither gets the simulated `500`. -/
theorem failure_injection_counterexample :
    ingest refHost storeOne ⟨rawStored, .bool true⟩ calm0 = (storeOne, dedupResponse) ∧
    dedupResponse.status = 200 ∧
    ingest refHost storeOne ⟨.null, .bool true⟩ calm0
      = (storeOne, errorResponse 400 "Normalization failed") :=
  ⟨rfl, rfl, rfl⟩

/-- The payload `rawB` with the flag set on the table `storeOne`. -/
theorem failure_injection_witness :
    (ingest refHost storeOne ⟨rawB, .bool true⟩ calm0).1 = storeOne ∧
    (ingest refHost storeOne ⟨rawB, .bool true⟩ calm0).2.status ≠ 201 ∧
    ((ingest refHost storeOne ⟨rawB, .bool true⟩ calm0).2
        = errorResponse 500 "Simulated Internal Server Error" ↔
      ((⟨rawB, .bool true⟩ : Request).event.isUndefined = false ∧
       dbGet storeOne (eventHash refHost (⟨rawB, .bool true⟩ : Request).event) calm0.getFault
         = .ok none ∧
       (normalizeEvent refHost calm0.now (⟨rawB, .bool true⟩ : Request).event).isValid = true)) :=
  failure_injection refHost storeOne ⟨rawB, .bool true⟩ calm0 (by rfl)

/-- Claim C3 at a failing input: two requests with the same payload both pass
the lookup on the empty table before either insert runs; the first insert is
answered `201`, the second hits the uniqueness violation and is answered `200`
with `status` and `message` but without the field `deduplicated`, which the
fast-path response carries as `true`. -/
theorem race_duplicate_response :
    Sys.run refHost Sys.init
        [.arrive ⟨rawB, .undefined⟩ now0 none, .arrive ⟨rawB, .undefined⟩ now0 none,
         .commit 0 "2024-01-01 10:00:00" none, .commit 0 "2024-01-01 10:00:01" none]
      = (⟨[insertedRow [] (insertArgsOf refHost rawB (.str "client_A") (.str "click") (.fin 5)
              now0) "2024-01-01 10:00:00"], []⟩,
         [createdResponse 1, raceResponse]) ∧
    objectKeys raceResponse.body = ["status", "message"] ∧
    objectKeys dedupResponse.body = ["status", "message", "deduplicated"] ∧
    (ownField dedupResponse.body "deduplicated").truthy = true ∧
    (ownField raceResponse.body "deduplicated").truthy = false :=
  ⟨rfl, rfl, rfl, rfl, rfl⟩

end FaultTolerant
